import Mathlib

/-!
# Verification of the docker-housekeeper backup pipeline

Shallow embedding of the backup orchestrator of docker-housekeeper
(`BackupService.Backup` and its helpers `createFile`, `encryptFile`,
`backupDatabase`, `backupDirectories`, the manifest type `BackupMeta`, and the
configuration type `BackupConfig` with `ageRecipients`).

External effects (the filesystem walk of `tarDir`, the database dump process,
`os.Create`, `age.Encrypt`, zip header creation, yaml serialization, the
rclone upload) are modelled as oracles collected in an `Env` record: each
oracle gives the bytes the effect produces and/or the error it returns, so a
run of the orchestrator is a pure function of the service configuration and
the environment.  The container (zip archive) is abstracted as the ordered
list of named entries written into it; the sink/encryption/container layers
are tracked through an event trace recording the order in which they are
opened and closed.
-/

namespace Housekeeper

/-- Error values (Go `error`), abstracted as their message strings. -/
abbrev Err := String

/-- Byte streams, abstracted as lists of byte values. -/
abbrev Bytes := List Nat

/-- An age X25519 public-key recipient (config field `BACKUP_AGE_RECIPIENTS`). -/
structure X25519Recipient where
  key : String
deriving DecidableEq

/-- An age scrypt passphrase recipient (config field `BACKUP_AGE_PASSWORD`). -/
structure ScryptRecipient where
  password : String
deriving DecidableEq

/-- A value of the Go interface `age.Recipient`: either an X25519 public key
or a scrypt passphrase. -/
inductive Recipient where
  | x25519 (r : X25519Recipient)
  | scrypt (r : ScryptRecipient)
deriving DecidableEq

/-- `BackupConfig` from `config.go` (lines 28-42): one field per `conf` tag. -/
structure BackupConfig where
  Database : Bool
  DataDirectories : String
  DataDirectoriesExclude : String
  Schedule : String
  Storage : String
  AgeRecipients : List X25519Recipient
  AgePassword : Option ScryptRecipient
  RClonePath : String
  RCloneConfig : String
deriving DecidableEq

/-- `BackupConfig.ageRecipients` from `config.go` (lines 44-53): every X25519
recipient in order, followed by the passphrase recipient when present. -/
def BackupConfig.ageRecipients (c : BackupConfig) : List Recipient :=
  (c.AgeRecipients.map Recipient.x25519) ++
    (match c.AgePassword with
     | some p => [Recipient.scrypt p]
     | none => [])

/-- `BackupMetaDirectory` from `backup_meta.go`. -/
structure BackupMetaDirectory where
  DirectoryPath : String
  Filename : String
deriving DecidableEq, Inhabited

/-- `BackupMeta` from `backup_meta.go`: the manifest serialized as the final
`backup.yml` container entry.  `DatabaseBackup = ""` models the unset
(`omitempty`) Go zero value. -/
structure BackupMeta where
  Version : Nat
  Date : String
  DatabaseBackup : String
  Directories : List BackupMetaDirectory
deriving DecidableEq

/-- The ASCII digit character for a decimal digit value. -/
def digitChar (d : Nat) : Char := Char.ofNat (48 + d)

/-- Accumulating decimal digit emitter (most significant digit first), with
explicit fuel so the recursion is structural; `fuel = n` always suffices. -/
def decCharsAux : Nat → Nat → List Char
  | 0, _ => []
  | fuel + 1, n =>
    if n = 0 then [] else decCharsAux fuel (n / 10) ++ [digitChar (n % 10)]

/-- Decimal rendering of a natural number, exactly as Go's `fmt` verb `%d`
renders a non-negative integer. -/
def decRepr (n : Nat) : String :=
  if n = 0 then "0" else String.mk (decCharsAux n n)

/-- The container entry name `fmt.Sprintf("data_%d.tar.gz", idx)` used for the
directory at input position `idx`. -/
def dataEntryName (idx : Nat) : String :=
  "data_" ++ decRepr idx ++ ".tar.gz"

/-- Go `strings.Split` on a single-character separator, on the character
list of the string. -/
def splitOnCharList (sep : Char) : List Char → List (List Char)
  | [] => [[]]
  | c :: rest =>
    let r := splitOnCharList sep rest
    if c = sep then [] :: r
    else
      match r with
      | [] => [[c]]
      | h :: t => (c :: h) :: t

/-- `strings.Split(s, ",")` as used by `backupDirectories` (and the config
loader): the comma-separated fields of `s`, in order.  `splitComma "" = [""]`,
matching Go. -/
def splitComma (s : String) : List String :=
  (splitOnCharList ',' s.data).map (fun l => String.mk l)

/-- A writer in the output pipeline: the sink stream returned by `createFile`,
or the age encryption wrapper that `age.Encrypt` layers on an inner writer. -/
inductive Writer where
  | sink
  | ageWrap (recipients : List Recipient) (w : Writer)
deriving DecidableEq

/-- The close function returned by `encryptFile`: `func() {}` when no
recipient is configured, `func() { encryptedFile.Close() }` otherwise. -/
inductive CloseAction where
  | noop
  | closeAge
deriving DecidableEq

/-- Bytes arriving at the sink when `bs` is written to `w`, given an abstract
encryption transform `enc` (one ciphertext per recipient set and plaintext). -/
def Writer.forward (enc : List Recipient → Bytes → Bytes) : Writer → Bytes → Bytes
  | .sink, bs => bs
  | .ageWrap rs w, bs => w.forward enc (enc rs bs)

/-- Bytes a close action flushes into the wrapped writer: the age close
finalizes the ciphertext framing (abstracted as `ageFooter`), the no-op
close `func() {}` emits nothing. -/
def CloseAction.closeEmits (ageFooter : Bytes) : CloseAction → Bytes
  | .noop => []
  | .closeAge => ageFooter

/-- A container entry: its name and the bytes written into it. -/
abbrev Entry := String × Bytes

/-- Lifecycle events of the three layers opened by `Backup`: the sink
(`createFile`), the encryption stage (`encryptFile`), and the container
(`zip.NewWriter`), plus their deferred closes. -/
inductive Event where
  | openSink
  | openEncrypt
  | openContainer
  | closeContainer
  | closeEncrypt
  | closeSink
deriving DecidableEq

/-- Oracles for every external effect one `Backup` run performs. -/
structure Env where
  /-- `time.Now()` formatted as RFC3339 when the output filename is chosen. -/
  nowName : String
  /-- `time.Now()` stored into `BackupMeta.Date`. -/
  nowMeta : String
  /-- Outcome of `os.Create` for the local backup file. -/
  createFileErr : Option Err
  /-- Outcome of `age.Encrypt` when recipients are configured. -/
  ageEncryptErr : Option Err
  /-- Outcome of `zipWriter.CreateHeader`, per entry name. -/
  createHeaderErr : String → Option Err
  /-- Bytes the gzip-wrapped `s.Database.Backup` writes into the `database.sql.gz`
  entry, and the error it returns (partial bytes remain on error). -/
  dbDump : Bytes × Option Err
  /-- Bytes `tarDir` writes for a given directory path, and the error it
  returns (partial bytes remain on error).  `tarDir` receives only the
  directory path, so its outcome is a function of that path alone. -/
  tarDir : String → Bytes × Option Err
  /-- The yaml serialization of a manifest (`yaml.Encoder.Encode`). -/
  yamlEncode : BackupMeta → Bytes
  /-- Outcome of the yaml encoding of the manifest. -/
  yamlErr : Option Err
  /-- Bytes left in the `backup.yml` entry when yaml encoding fails midway. -/
  yamlAborted : Bytes
  /-- Error of the sink close (`file.Close()`, or the remote put observed at
  the `writer.Close(); wg.Wait()` rendezvous).  Discarded by the code. -/
  sinkCloseErr : Option Err
  /-- Error of `encryptedFile.Close()`.  Discarded by the code. -/
  encCloseErr : Option Err
  /-- Error of `zipWriter.Close()`.  Discarded by the code. -/
  containerCloseErr : Option Err

/-- The `BackupService` receiver state relevant to a run: its configuration,
whether `s.Database` is non-nil, and whether `s.RClone` is non-nil (remote
mode). -/
structure BackupService where
  Config : BackupConfig
  hasDatabase : Bool
  hasRClone : Bool

/-- `BackupService.IsBackupEnabled` (part_001 lines 61-63). -/
def BackupService.IsBackupEnabled (s : BackupService) : Bool :=
  s.Config.Database || (s.Config.DataDirectories != "")

/-- `BackupService.createFile` (part_001 lines 164-195).  Local mode
(`s.RClone == nil`) creates a file under the storage path and can fail;
remote mode builds an `io.Pipe` and starts the background rclone put, which
cannot fail at creation time. -/
def BackupService.createFile (s : BackupService) (env : Env) (filename : String) :
    Except Err Unit :=
  if !s.hasRClone then
    match env.createFileErr with
    | some e => Except.error ("failed to create backup file " ++ filename ++ ": " ++ e)
    | none => Except.ok ()
  else
    Except.ok ()

/-- `BackupService.encryptFile` (part_001 lines 198-210): wrap the sink with
`age.Encrypt` when at least one recipient is configured, otherwise return the
sink unchanged together with the no-op close `func() {}`. -/
def BackupService.encryptFile (s : BackupService) (ageErr : Option Err)
    (file : Writer) : Except Err (Writer × CloseAction) :=
  let recipients := s.Config.ageRecipients
  if recipients.length > 0 then
    match ageErr with
    | some e => Except.error ("failed age encryption: " ++ e)
    | none => Except.ok (Writer.ageWrap recipients file, CloseAction.closeAge)
  else
    Except.ok (file, CloseAction.noop)

/-- `BackupService.backupDatabase` (part_001 lines 212-236): when database
backup is enabled and a database connection exists, open the
`database.sql.gz` entry, stream the gzip-compressed dump into it, and on
success record the entry name in the manifest. -/
def BackupService.backupDatabase (s : BackupService) (env : Env)
    (entries : List Entry) (meta : BackupMeta) :
    Option Err × List Entry × BackupMeta :=
  if !(s.Config.Database && s.hasDatabase) then
    (none, entries, meta)
  else
    match env.createHeaderErr "database.sql.gz" with
    | some e => (some ("failed to create database.sql.gz: " ++ e), entries, meta)
    | none =>
      let dump := env.dbDump
      let entries := entries ++ [("database.sql.gz", dump.1)]
      match dump.2 with
      | some e => (some e, entries, meta)
      | none => (none, entries, { meta with DatabaseBackup := "database.sql.gz" })

/-- The loop body of `backupDirectories` (part_001 lines 246-266) over the
remaining directories, carrying the next entry index, the container entries
written so far, and the manifest.  `hdr` is the `zipWriter.CreateHeader`
oracle and `walk` the `tarDir` oracle — the two external effects the loop
performs. -/
def backupDirsLoop (hdr : String → Option Err) (walk : String → Bytes × Option Err) :
    Nat → List String → List Entry → BackupMeta →
    Option Err × List Entry × BackupMeta
  | _, [], entries, meta => (none, entries, meta)
  | idx, dir :: rest, entries, meta =>
    let name := dataEntryName idx
    match hdr name with
    | some e => (some ("failed to create " ++ name ++ ": " ++ e), entries, meta)
    | none =>
      let out := walk dir
      let entries := entries ++ [(name, out.1)]
      match out.2 with
      | some e => (some ("failed to create " ++ name ++ ": " ++ e), entries, meta)
      | none =>
        backupDirsLoop hdr walk (idx + 1) rest entries
          { meta with Directories := meta.Directories.set idx ⟨dir, name⟩ }

/-- `BackupService.backupDirectories` (part_001 lines 238-268): when any
directory is configured, split the comma-separated list, allocate the
manifest directory slice at full length (Go `make`), and run the loop from
index 0. -/
def BackupService.backupDirectories (s : BackupService) (env : Env)
    (entries : List Entry) (meta : BackupMeta) :
    Option Err × List Entry × BackupMeta :=
  if s.Config.DataDirectories == "" then
    (none, entries, meta)
  else
    let dirsSplit := splitComma s.Config.DataDirectories
    backupDirsLoop env.createHeaderErr env.tarDir 0 dirsSplit entries
      { meta with Directories := List.replicate dirsSplit.length default }

/-- The body of `Backup` between opening the container writer and the
deferred closes (part_001 lines 132-156): database phase, directories phase,
then the `backup.yml` manifest entry, aborting at the first error. -/
def backupBody (s : BackupService) (env : Env) (meta0 : BackupMeta) :
    Option Err × List Entry × BackupMeta :=
  match s.backupDatabase env [] meta0 with
  | (some e, entries, meta) => (some e, entries, meta)
  | (none, entries, meta) =>
    match s.backupDirectories env entries meta with
    | (some e, entries2, meta2) => (some e, entries2, meta2)
    | (none, entries2, meta2) =>
      match env.createHeaderErr "backup.yml" with
      | some e => (some ("failed to create backup.yml: " ++ e), entries2, meta2)
      | none =>
        match env.yamlErr with
        | some e => (some ("failed to write backup.yml: " ++ e),
                     entries2 ++ [("backup.yml", env.yamlAborted)], meta2)
        | none => (none, entries2 ++ [("backup.yml", env.yamlEncode meta2)], meta2)

/-- The observable outcome of one `Backup` run: the returned error (`none`
models a `nil` return), the chosen output filename, whether the sink was
opened, the container entries written (name and bytes, in order), the final
manifest value (when the run reached the point of creating it), and the
open/close event trace of the three layers. -/
structure BackupResult where
  ret : Option Err
  filename : Option String
  sinkOpened : Bool
  entries : List Entry
  meta : Option BackupMeta
  events : List Event
deriving DecidableEq

/-- `BackupService.Backup` (part_001 lines 100-161).  When nothing is enabled
the run returns `nil` without touching any sink.  Otherwise it picks the
timestamped filename (with the `.age` suffix exactly when a recipient is
configured), opens the sink, wraps it with the encryption stage, wraps that
with the zip container writer, runs the body, and lets the three deferred
closes run in reverse order of opening; each deferred close discards its
error. -/
def BackupService.Backup (s : BackupService) (env : Env) : BackupResult :=
  if !s.IsBackupEnabled then
    { ret := none, filename := none, sinkOpened := false, entries := [],
      meta := none, events := [] }
  else
    let recipients := s.Config.ageRecipients
    let filename :=
      if recipients.length > 0 then
        "backup_" ++ env.nowName ++ ".zip.age"
      else
        "backup_" ++ env.nowName ++ ".zip"
    match s.createFile env filename with
    | Except.error e =>
      { ret := some e, filename := some filename, sinkOpened := false,
        entries := [], meta := none, events := [] }
    | Except.ok _ =>
      match s.encryptFile env.ageEncryptErr Writer.sink with
      | Except.error e =>
        -- only the deferred fileClose has been registered; it runs and its
        -- outcome is discarded
        let _ := env.sinkCloseErr
        { ret := some e, filename := some filename, sinkOpened := true,
          entries := [], meta := none,
          events := [Event.openSink, Event.closeSink] }
      | Except.ok _ =>
        let meta0 : BackupMeta :=
          { Version := 1, Date := env.nowMeta, DatabaseBackup := "",
            Directories := [] }
        let body := backupBody s env meta0
        -- the three deferred closes run last-registered first; each discards
        -- its error
        let _ := env.containerCloseErr
        let _ := env.encCloseErr
        let _ := env.sinkCloseErr
        { ret := body.1, filename := some filename, sinkOpened := true,
          entries := body.2.1, meta := some body.2.2,
          events := [Event.openSink, Event.openEncrypt, Event.openContainer,
                     Event.closeContainer, Event.closeEncrypt, Event.closeSink] }

/-! ## Decimal rendering facts -/

/-- Decimal parse of a digit character list; left inverse of `decCharsAux`. -/
def ofDecChars (cs : List Char) : Nat :=
  cs.foldl (fun acc c => acc * 10 + (c.toNat - 48)) 0

theorem digitChar_toNat : ∀ d, d < 10 → (digitChar d).toNat = 48 + d := by decide

theorem ofDecChars_append_singleton (l : List Char) (c : Char) :
    ofDecChars (l ++ [c]) = ofDecChars l * 10 + (c.toNat - 48) := by
  simp [ofDecChars, List.foldl_append]

theorem ofDecChars_decCharsAux :
    ∀ fuel n, n ≤ fuel → ofDecChars (decCharsAux fuel n) = n := by
  intro fuel
  induction fuel with
  | zero =>
    intro n hn
    have : n = 0 := Nat.le_zero.mp hn
    subst this
    simp [decCharsAux, ofDecChars]
  | succ fuel ih =>
    intro n hn
    by_cases h0 : n = 0
    · subst h0; simp [decCharsAux, ofDecChars]
    · have hlt : n / 10 < n := Nat.div_lt_self (Nat.pos_of_ne_zero h0) (by norm_num)
      have hdiv : n / 10 ≤ fuel := by omega
      rw [show decCharsAux (fuel + 1) n
            = decCharsAux fuel (n / 10) ++ [digitChar (n % 10)] from by
          simp [decCharsAux, h0]]
      rw [ofDecChars_append_singleton, ih _ hdiv,
        digitChar_toNat _ (Nat.mod_lt _ (by norm_num))]
      omega

theorem decRepr_injective : Function.Injective decRepr := by
  intro m n h
  by_cases hm : m = 0 <;> by_cases hn : n = 0
  · omega
  · exfalso
    have hd := congrArg String.data h
    rw [show decRepr m = "0" from by simp [decRepr, hm],
      show decRepr n = String.mk (decCharsAux n n) from by simp [decRepr, hn]] at hd
    have := congrArg ofDecChars hd
    rw [ofDecChars_decCharsAux n n le_rfl] at this
    rw [show ofDecChars ("0" : String).data = 0 from by decide] at this
    exact hn this.symm
  · exfalso
    have hd := congrArg String.data h
    rw [show decRepr n = "0" from by simp [decRepr, hn],
      show decRepr m = String.mk (decCharsAux m m) from by simp [decRepr, hm]] at hd
    have := congrArg ofDecChars hd
    rw [ofDecChars_decCharsAux m m le_rfl] at this
    rw [show ofDecChars ("0" : String).data = 0 from by decide] at this
    exact hm this
  · have hd := congrArg String.data h
    rw [show decRepr m = String.mk (decCharsAux m m) from by simp [decRepr, hm],
      show decRepr n = String.mk (decCharsAux n n) from by simp [decRepr, hn]] at hd
    have := congrArg ofDecChars hd
    rwa [ofDecChars_decCharsAux m m le_rfl, ofDecChars_decCharsAux n n le_rfl] at this

theorem dataEntryName_injective : Function.Injective dataEntryName := by
  intro m n h
  apply decRepr_injective
  have hd : ("data_" : String).data ++ ((decRepr m).data ++ (".tar.gz" : String).data)
      = ("data_" : String).data ++ ((decRepr n).data ++ (".tar.gz" : String).data) := by
    have := congrArg String.data h
    simpa [dataEntryName, String.data_append, List.append_assoc] using this
  have h2 := List.append_cancel_left hd
  have h3 := List.append_cancel_right h2
  exact String.ext h3

theorem dataEntryName_ne_backupYml (i : Nat) : dataEntryName i ≠ "backup.yml" := by
  intro h
  have h1 : ((dataEntryName i).data).head? = some 'd' := by
    simp [dataEntryName, String.data_append,
      show ("data_" : String).data = ['d', 'a', 't', 'a', '_'] from by decide]
  rw [h] at h1
  rw [show ("backup.yml" : String).data
      = ['b', 'a', 'c', 'k', 'u', 'p', '.', 'y', 'm', 'l'] from by decide] at h1
  simp at h1

theorem dataEntryName_ne_databaseSqlGz (i : Nat) :
    dataEntryName i ≠ "database.sql.gz" := by
  intro h
  have h1 : (((dataEntryName i).data).drop 4).head? = some '_' := by
    simp [dataEntryName, String.data_append,
      show ("data_" : String).data = ['d', 'a', 't', 'a', '_'] from by decide]
  rw [h] at h1
  rw [show ("database.sql.gz" : String).data
      = ['d', 'a', 't', 'a', 'b', 'a', 's', 'e', '.', 's', 'q', 'l', '.', 'g', 'z']
    from by decide] at h1
  simp at h1

/-! ## List helpers -/

theorem set_append_length {α : Type} (pre : List α) (v x : α) (tail : List α) :
    (pre ++ x :: tail).set pre.length v = pre ++ v :: tail := by
  induction pre with
  | nil => rfl
  | cons a t ih =>
    show a :: (t ++ x :: tail).set t.length v = a :: (t ++ v :: tail)
    exact congrArg _ ih

theorem range_map_getD {α : Type} (d : α) :
    ∀ l : List α, (List.range l.length).map (fun i => l.getD i d) = l := by
  intro l
  induction l with
  | nil => rfl
  | cons a t ih =>
    rw [show (a :: t).length = t.length + 1 from rfl, List.range_succ_eq_map]
    simp only [List.map_cons, List.map_map]
    refine congrArg₂ _ rfl ?_
    conv_rhs => rw [← ih]
    apply List.map_congr_left
    intro j _
    simp [List.getD]

/-- Splitting a map over `range (n+1)` that walks `d :: rest` with a shifted
index into its head and tail parts. -/
theorem map_range_cons_shift {β : Type} (G : Nat → String → β) (d : String)
    (rest : List String) (idx n : Nat) :
    (List.range (n + 1)).map (fun j => G (idx + j) ((d :: rest).getD j "")) =
      G idx d :: (List.range n).map (fun j => G (idx + 1 + j) (rest.getD j "")) := by
  rw [List.range_succ_eq_map]
  simp only [List.map_cons, List.map_map]
  refine congrArg₂ _ (by simp [List.getD]) ?_
  apply List.map_congr_left
  intro j _
  show G (idx + (j + 1)) ((d :: rest).getD (j + 1) "") = _
  have h1 : idx + (j + 1) = idx + 1 + j := by omega
  rw [h1]
  simp [List.getD]

/-! ## Directory-loop characterizations -/

/-- On an all-success environment, the directory loop appends one
`data_<idx+j>.tar.gz` entry per directory (in input order) and records the
matching `{path, filename}` pairs at positions `idx, idx+1, …` of the
manifest directory list. -/
theorem backupDirsLoop_ok (hdr : String → Option Err)
    (walk : String → Bytes × Option Err)
    (hch : ∀ n, hdr n = none) :
    ∀ (dirs : List String) (idx : Nat) (entries : List Entry)
      (meta : BackupMeta) (pre : List BackupMetaDirectory),
      (∀ d ∈ dirs, (walk d).2 = none) →
      meta.Directories = pre ++ List.replicate dirs.length default →
      pre.length = idx →
      backupDirsLoop hdr walk idx dirs entries meta =
        (none,
         entries ++ ((List.range dirs.length).map (fun j => (dataEntryName (idx + j), (walk (dirs.getD j "")).1))),
         { meta with Directories := pre ++ ((List.range dirs.length).map (fun j => ⟨dirs.getD j "", dataEntryName (idx + j)⟩)) }) := by
  intro dirs
  induction dirs with
  | nil =>
    intro idx entries meta pre _ hmeta _
    cases meta
    simp only [List.length_nil, List.replicate_zero, List.append_nil] at hmeta
    simp [backupDirsLoop, hmeta]
  | cons d rest ih =>
    intro idx entries meta pre htar hmeta hlen
    have hstep : backupDirsLoop hdr walk idx (d :: rest) entries meta
        = backupDirsLoop hdr walk (idx + 1) rest
            (entries ++ [(dataEntryName idx, (walk d).1)])
            { meta with Directories := meta.Directories.set idx ⟨d, dataEntryName idx⟩ } := by
      simp [backupDirsLoop, hch, htar d (List.mem_cons_self d rest)]
    rw [hstep]
    have hmeta' : ({ meta with Directories := meta.Directories.set idx ⟨d, dataEntryName idx⟩ } : BackupMeta).Directories
        = (pre ++ [⟨d, dataEntryName idx⟩]) ++ List.replicate rest.length default := by
      show meta.Directories.set idx ⟨d, dataEntryName idx⟩ = _
      rw [hmeta, show (d :: rest).length = rest.length + 1 from rfl,
        List.replicate_succ, ← hlen, set_append_length, List.append_assoc]
      rfl
    have hlen' : (pre ++ [(⟨d, dataEntryName idx⟩ : BackupMetaDirectory)]).length
        = idx + 1 := by simp [hlen]
    rw [ih (idx + 1) (entries ++ [(dataEntryName idx, (walk d).1)]) _ _
      (fun d' hd' => htar d' (List.mem_cons_of_mem d hd')) hmeta' hlen']
    rw [show (d :: rest).length = rest.length + 1 from rfl]
    rw [map_range_cons_shift (fun k s => ((dataEntryName k, (walk s).1) : Entry)) d rest idx rest.length]
    rw [map_range_cons_shift (fun k s => (⟨s, dataEntryName k⟩ : BackupMetaDirectory)) d rest idx rest.length]
    simp [List.append_assoc]

/-- When `tarDir` fails on the directory at position `i` (all earlier ones
succeeding and every header creation succeeding), the loop stops with the
wrapped error; the entries for positions `0..i-1` plus the partial entry `i`
have been appended, in order. -/
theorem backupDirsLoop_fail (hdr : String → Option Err)
    (walk : String → Bytes × Option Err) (e : Err)
    (hch : ∀ n, hdr n = none) :
    ∀ (i : Nat) (dirs : List String) (idx : Nat) (entries : List Entry)
      (meta : BackupMeta),
      i < dirs.length →
      (∀ j, j < i → (walk (dirs.getD j "")).2 = none) →
      (walk (dirs.getD i "")).2 = some e →
      ∃ m, backupDirsLoop hdr walk idx dirs entries meta =
        (some ("failed to create " ++ dataEntryName (idx + i) ++ ": " ++ e),
         entries ++ ((List.range (i + 1)).map (fun j => (dataEntryName (idx + j), (walk (dirs.getD j "")).1))),
         m) := by
  intro i
  induction i with
  | zero =>
    intro dirs idx entries meta hi hpre hfail
    cases dirs with
    | nil => exact absurd hi (by simp)
    | cons d rest =>
      refine ⟨meta, ?_⟩
      have hd : (walk d).2 = some e := by simpa [List.getD] using hfail
      have hstep : backupDirsLoop hdr walk idx (d :: rest) entries meta
          = (some ("failed to create " ++ dataEntryName idx ++ ": " ++ e),
             entries ++ [(dataEntryName idx, (walk d).1)], meta) := by
        simp [backupDirsLoop, hch, hd]
      rw [hstep]
      rw [map_range_cons_shift (fun k s => ((dataEntryName k, (walk s).1) : Entry)) d rest idx 0]
      simp
  | succ i ih =>
    intro dirs idx entries meta hi hpre hfail
    cases dirs with
    | nil => exact absurd hi (by simp)
    | cons d rest =>
      have hd0 : (walk d).2 = none := by
        simpa [List.getD] using hpre 0 (Nat.succ_pos i)
      have hstep : backupDirsLoop hdr walk idx (d :: rest) entries meta
          = backupDirsLoop hdr walk (idx + 1) rest
              (entries ++ [(dataEntryName idx, (walk d).1)])
              { meta with Directories := meta.Directories.set idx ⟨d, dataEntryName idx⟩ } := by
        simp [backupDirsLoop, hch, hd0]
      have hi' : i < rest.length := by
        simp only [List.length_cons] at hi
        omega
      have hpre' : ∀ j, j < i → (walk (rest.getD j "")).2 = none := by
        intro j hj
        simpa [List.getD] using hpre (j + 1) (by omega)
      have hfail' : (walk (rest.getD i "")).2 = some e := by
        simpa [List.getD] using hfail
      obtain ⟨m, hm⟩ := ih rest (idx + 1)
        (entries ++ [(dataEntryName idx, (walk d).1)])
        { meta with Directories := meta.Directories.set idx ⟨d, dataEntryName idx⟩ }
        hi' hpre' hfail'
      refine ⟨m, ?_⟩
      rw [hstep, hm]
      rw [show idx + 1 + i = idx + (i + 1) from by omega]
      rw [show (i + 1) + 1 = (i + 1) + 1 from rfl]
      rw [map_range_cons_shift (fun k s => ((dataEntryName k, (walk s).1) : Entry)) d rest idx (i + 1)]
      simp [List.append_assoc]

/-! ## Run-level scaffolding -/

theorem createFile_ok (s : BackupService) (env : Env) (fn : String)
    (hcf : env.createFileErr = none) : s.createFile env fn = Except.ok () := by
  cases h : s.hasRClone <;> simp [BackupService.createFile, h, hcf]

theorem encryptFile_ok (s : BackupService) (w : Writer) :
    ∃ p, s.encryptFile none w = Except.ok p := by
  by_cases hr : (s.Config.ageRecipients).length > 0 <;>
    simp [BackupService.encryptFile, hr]

/-- The manifest value `Backup` creates before the producer phases run. -/
def metaInit (env : Env) : BackupMeta :=
  { Version := 1, Date := env.nowMeta, DatabaseBackup := "", Directories := [] }

/-- The full open/close event trace of a run that reached the container. -/
def fullEvents : List Event :=
  [Event.openSink, Event.openEncrypt, Event.openContainer,
   Event.closeContainer, Event.closeEncrypt, Event.closeSink]

/-- Every enabled run whose sink and encryption stage open successfully is the
body's outcome wrapped in the open/close scaffolding. -/
theorem Backup_run (s : BackupService) (env : Env)
    (hen : s.IsBackupEnabled = true)
    (hcf : env.createFileErr = none) (hage : env.ageEncryptErr = none) :
    s.Backup env =
      { ret := (backupBody s env (metaInit env)).1,
        filename := some (if (s.Config.ageRecipients).length > 0 then
          "backup_" ++ env.nowName ++ ".zip.age" else "backup_" ++ env.nowName ++ ".zip"),
        sinkOpened := true,
        entries := (backupBody s env (metaInit env)).2.1,
        meta := some (backupBody s env (metaInit env)).2.2,
        events := fullEvents } := by
  simp only [BackupService.Backup, hen, Bool.not_true, Bool.false_eq_true, if_false]
  rw [createFile_ok s env _ hcf, hage]
  obtain ⟨p, hp⟩ := encryptFile_ok s Writer.sink
  rw [hp]
  rfl

/-- The entries the database phase writes on a fully successful run. -/
def dbEntries (s : BackupService) (env : Env) : List Entry :=
  if s.Config.Database && s.hasDatabase then
    [("database.sql.gz", (env.dbDump).1)]
  else
    []

/-- The entries the directories phase writes on a fully successful run. -/
def dirEntries (s : BackupService) (env : Env) : List Entry :=
  if s.Config.DataDirectories == "" then
    []
  else
    (List.range (splitComma s.Config.DataDirectories).length).map
      (fun j => (dataEntryName j,
        (env.tarDir ((splitComma s.Config.DataDirectories).getD j "")).1))

/-- The manifest value at the end of a fully successful run. -/
def finalMeta (s : BackupService) (env : Env) : BackupMeta :=
  { Version := 1, Date := env.nowMeta,
    DatabaseBackup :=
      if s.Config.Database && s.hasDatabase then "database.sql.gz" else "",
    Directories :=
      if s.Config.DataDirectories == "" then
        []
      else
        (List.range (splitComma s.Config.DataDirectories).length).map
          (fun j => ⟨(splitComma s.Config.DataDirectories).getD j "",
            dataEntryName j⟩) }

/-- On an all-success environment, the body writes the database entry (when
enabled), one entry per configured directory, and finally the manifest
entry, returning no error. -/
theorem backupBody_success (s : BackupService) (env : Env)
    (hch : ∀ n, env.createHeaderErr n = none)
    (hdump : (env.dbDump).2 = none)
    (htar : ∀ d, (env.tarDir d).2 = none)
    (hyaml : env.yamlErr = none) :
    backupBody s env (metaInit env) =
      (none,
       dbEntries s env ++ dirEntries s env
         ++ [("backup.yml", env.yamlEncode (finalMeta s env))],
       finalMeta s env) := by
  have hdbStep : s.backupDatabase env [] (metaInit env)
      = (none, dbEntries s env,
         { Version := 1, Date := env.nowMeta,
           DatabaseBackup :=
             if s.Config.Database && s.hasDatabase then "database.sql.gz" else "",
           Directories := [] }) := by
    by_cases hdb : (s.Config.Database && s.hasDatabase) = true
    · simp [BackupService.backupDatabase, hdb, hch, hdump, dbEntries, metaInit]
    · rw [Bool.not_eq_true] at hdb
      simp [BackupService.backupDatabase, hdb, dbEntries, metaInit]
  have hdirStep : s.backupDirectories env (dbEntries s env)
      { Version := 1, Date := env.nowMeta,
        DatabaseBackup :=
          if s.Config.Database && s.hasDatabase then "database.sql.gz" else "",
        Directories := [] }
      = (none, dbEntries s env ++ dirEntries s env, finalMeta s env) := by
    by_cases hd : (s.Config.DataDirectories == "") = true
    · simp [BackupService.backupDirectories, hd, dirEntries, finalMeta, hd]
    · rw [BackupService.backupDirectories, if_neg (by simp [hd])]
      rw [backupDirsLoop_ok env.createHeaderErr env.tarDir hch
        (splitComma s.Config.DataDirectories) 0
        (dbEntries s env) _ [] (fun d _ => htar d) (by simp) rfl]
      refine congrArg₂ _ rfl (congrArg₂ _ ?_ ?_)
      · simp [dirEntries, hd]
      · simp [finalMeta, hd]
  rw [backupBody, hdbStep]
  dsimp only
  rw [hdirStep]
  dsimp only
  rw [hch "backup.yml"]
  dsimp only
  rw [hyaml]

/-- Full characterization of a run on an all-success environment. -/
theorem Backup_success (s : BackupService) (env : Env)
    (hen : s.IsBackupEnabled = true)
    (hcf : env.createFileErr = none) (hage : env.ageEncryptErr = none)
    (hch : ∀ n, env.createHeaderErr n = none)
    (hdump : (env.dbDump).2 = none)
    (htar : ∀ d, (env.tarDir d).2 = none)
    (hyaml : env.yamlErr = none) :
    s.Backup env =
      { ret := none,
        filename := some (if (s.Config.ageRecipients).length > 0 then
          "backup_" ++ env.nowName ++ ".zip.age" else "backup_" ++ env.nowName ++ ".zip"),
        sinkOpened := true,
        entries := dbEntries s env ++ dirEntries s env
          ++ [("backup.yml", env.yamlEncode (finalMeta s env))],
        meta := some (finalMeta s env),
        events := fullEvents } := by
  rw [Backup_run s env hen hcf hage, backupBody_success s env hch hdump htar hyaml]

/-- When the database dump fails, the body stops there: the partial
`database.sql.gz` entry is the only entry written and the dump's error is
returned. -/
theorem backupBody_dbfail (s : BackupService) (env : Env) (e : Err)
    (hdb : s.Config.Database = true) (hhas : s.hasDatabase = true)
    (hch : ∀ n, env.createHeaderErr n = none)
    (hfail : (env.dbDump).2 = some e) :
    backupBody s env (metaInit env)
      = (some e, [("database.sql.gz", (env.dbDump).1)], metaInit env) := by
  rw [backupBody]
  have hstep : s.backupDatabase env [] (metaInit env)
      = (some e, [("database.sql.gz", (env.dbDump).1)], metaInit env) := by
    simp [BackupService.backupDatabase, hdb, hhas, hch, hfail]
  rw [hstep]

/-- When `tarDir` fails on the directory at position `i` (earlier directories
and the database dump succeeding), the body stops inside the directory loop:
the database entry (when enabled) and the entries for directories `0..i`
(the last one partial) are in the container, no `backup.yml` entry is
written, and the wrapped error is returned. -/
theorem backupBody_dirfail (s : BackupService) (env : Env) (i : Nat) (e : Err)
    (hdir : (s.Config.DataDirectories == "") = false)
    (hch : ∀ n, env.createHeaderErr n = none)
    (hdump : (env.dbDump).2 = none)
    (hi : i < (splitComma s.Config.DataDirectories).length)
    (hpre : ∀ j, j < i →
      (env.tarDir ((splitComma s.Config.DataDirectories).getD j "")).2 = none)
    (hfail : (env.tarDir ((splitComma s.Config.DataDirectories).getD i "")).2 = some e) :
    ∃ m, backupBody s env (metaInit env)
      = (some ("failed to create " ++ dataEntryName i ++ ": " ++ e),
         dbEntries s env ++ ((List.range (i + 1)).map (fun j => (dataEntryName j,
           (env.tarDir ((splitComma s.Config.DataDirectories).getD j "")).1))),
         m) := by
  have hdbStep : s.backupDatabase env [] (metaInit env)
      = (none, dbEntries s env,
         { Version := 1, Date := env.nowMeta,
           DatabaseBackup :=
             if s.Config.Database && s.hasDatabase then "database.sql.gz" else "",
           Directories := [] }) := by
    by_cases hdb : (s.Config.Database && s.hasDatabase) = true
    · simp [BackupService.backupDatabase, hdb, hch, hdump, dbEntries, metaInit]
    · rw [Bool.not_eq_true] at hdb
      simp [BackupService.backupDatabase, hdb, dbEntries, metaInit]
  obtain ⟨m, hm⟩ := backupDirsLoop_fail env.createHeaderErr env.tarDir e hch i
    (splitComma s.Config.DataDirectories) 0 (dbEntries s env)
    { Version := 1, Date := env.nowMeta,
      DatabaseBackup :=
        if s.Config.Database && s.hasDatabase then "database.sql.gz" else "",
      Directories := List.replicate (splitComma s.Config.DataDirectories).length default }
    hi hpre hfail
  refine ⟨m, ?_⟩
  rw [backupBody, hdbStep]
  dsimp only
  rw [BackupService.backupDirectories, if_neg (by simp [hdir])]
  rw [hm]
  dsimp only
  refine congrArg₂ _ (by rw [Nat.zero_add]) (congrArg₂ _ ?_ rfl)
  refine congrArg₂ _ rfl (List.map_congr_left ?_)
  intro j _
  rw [Nat.zero_add]

/-- The event trace of any run is one of the three shapes the control flow
allows: nothing opened, only the sink opened (encryption setup failed), or
all three layers opened and closed. -/
theorem backup_events_shape (s : BackupService) (env : Env) :
    (s.Backup env).events = []
      ∨ (s.Backup env).events = [Event.openSink, Event.closeSink]
      ∨ (s.Backup env).events = fullEvents := by
  rw [BackupService.Backup]
  by_cases hen : s.IsBackupEnabled = true
  · simp only [hen, Bool.not_true, Bool.false_eq_true, if_false]
    cases hcf : s.createFile env (if (s.Config.ageRecipients).length > 0 then
        "backup_" ++ env.nowName ++ ".zip.age" else "backup_" ++ env.nowName ++ ".zip") with
    | error e => exact Or.inl rfl
    | ok u =>
      cases henc : s.encryptFile env.ageEncryptErr Writer.sink with
      | error e => exact Or.inr (Or.inl rfl)
      | ok p => exact Or.inr (Or.inr rfl)
  · rw [Bool.not_eq_true] at hen
    simp [hen]

/-! ## Remote sink model (`createFile`, remote branch)

In remote mode `createFile` builds `io.Pipe()`, starts a goroutine running
`s.RClone.Put` on the read end, and hands `Backup` the write end together
with the close function `func() { writer.Close(); wg.Wait() }` (part_001
lines 175-194).  If the put fails, the goroutine calls
`reader.CloseWithError(err)`, after which every later write into the pipe
returns that error; writes made before that point succeed.  The model below
captures exactly this protocol, indexing the pipe writes of one run. -/

/-- The background upload of one remote-mode run: the outcome of
`s.RClone.Put`, and the index of the first pipe write issued after the
goroutine closed the read end with the put's error (on a successful put no
write ever fails, so `errVisibleFrom` is irrelevant then). -/
structure RemotePut where
  putErr : Option Err
  errVisibleFrom : Nat
deriving DecidableEq

/-- The outcome the pipe write with index `i` observes. -/
def pipeWriteErr (p : RemotePut) (i : Nat) : Option Err :=
  match p.putErr with
  | some e => if p.errVisibleFrom ≤ i then some e else none
  | none => none

/-- The close function `createFile` returns in remote mode:
`writer.Close(); wg.Wait()`.  Its Go type is `func()`: whatever the put
returned, the rendezvous hands no error back to `Backup`. -/
def remoteCloseRet (_ : RemotePut) : Option Err := none

/-- First error among the pipe writes `i, i+1, …, i+k-1`, in order. -/
def firstWriteErr (p : RemotePut) : Nat → Nat → Option Err
  | _, 0 => none
  | i, k + 1 =>
    match pipeWriteErr p i with
    | some e => some e
    | none => firstWriteErr p (i + 1) k

/-- The error `Backup` returns on a remote-mode run whose body performs
`numWrites` pipe writes and encounters no other failure: the body aborts at
the first failing pipe write; if no write fails the run returns `nil`,
because the deferred close (`remoteCloseRet`) carries no error. -/
def remoteRunRet (p : RemotePut) (numWrites : Nat) : Option Err :=
  firstWriteErr p 0 numWrites

theorem firstWriteErr_eq (p : RemotePut) (e : Err) (h : p.putErr = some e) :
    ∀ k i, firstWriteErr p i k
      = if 0 < k ∧ p.errVisibleFrom < i + k then some e else none := by
  intro k
  induction k with
  | zero => intro i; simp [firstWriteErr]
  | succ k ih =>
    intro i
    rw [show firstWriteErr p i (k + 1)
        = (match pipeWriteErr p i with
           | some e => some e
           | none => firstWriteErr p (i + 1) k) from rfl]
    by_cases hvis : p.errVisibleFrom ≤ i
    · rw [show pipeWriteErr p i = some e from by simp [pipeWriteErr, h, hvis]]
      rw [if_pos ⟨Nat.succ_pos k, by omega⟩]
    · rw [show pipeWriteErr p i = none from by simp [pipeWriteErr, h, hvis]]
      rw [ih (i + 1)]
      split_ifs with h1 h2 <;> try rfl
      · exact absurd (by omega : 0 < k + 1 ∧ p.errVisibleFrom < i + (k + 1)) h2
      · exact absurd (by omega : 0 < k ∧ p.errVisibleFrom < i + 1 + k) h1

/-! ## Concrete sample runs -/

/-- A configuration with database backup on, two data directories, no
encryption recipient and no rclone remote. -/
def sampleConfig : BackupConfig :=
  { Database := true, DataDirectories := "/data/A,/data/B",
    DataDirectoriesExclude := "", Schedule := "@daily", Storage := "/backup",
    AgeRecipients := [], AgePassword := none, RClonePath := "", RCloneConfig := "" }

/-- A local-mode service over `sampleConfig` with a live database handle. -/
def sampleService : BackupService :=
  { Config := sampleConfig, hasDatabase := true, hasRClone := false }

/-- A remote-mode (rclone) variant of `sampleService`. -/
def sampleRemoteService : BackupService :=
  { Config := { sampleConfig with RClonePath := "s3:bucket" },
    hasDatabase := true, hasRClone := true }

/-- A service with database backup off and no directories configured. -/
def sampleDisabledService : BackupService :=
  { Config := { sampleConfig with Database := false, DataDirectories := "" },
    hasDatabase := false, hasRClone := false }

/-- An environment in which every external effect succeeds. -/
def sampleEnv : Env :=
  { nowName := "2024-05-01T03:00:00Z", nowMeta := "2024-05-01T03:00:01Z",
    createFileErr := none, ageEncryptErr := none,
    createHeaderErr := fun _ => none,
    dbDump := ([10, 20], none),
    tarDir := fun d => (if d = "/data/A" then [1, 2] else [3], none),
    yamlEncode := fun m => [m.Version, m.Directories.length],
    yamlErr := none, yamlAborted := [],
    sinkCloseErr := none, encCloseErr := none, containerCloseErr := none }

/-- Like `sampleEnv`, but the database dump fails after two bytes. -/
def sampleDbFailEnv : Env :=
  { sampleEnv with dbDump := ([10], some "dump failed") }

/-- Like `sampleEnv`, but the walk of the second directory fails. -/
def sampleDirFailEnv : Env :=
  { sampleEnv with
    tarDir := fun d =>
      if d = "/data/B" then ([7], some "walk failed") else ([1, 2], none) }

/-! ## Helper lemmas shared between claims -/

theorem ageRecipients_pos_iff (c : BackupConfig) :
    (c.ageRecipients).length > 0 ↔ (c.AgeRecipients ≠ [] ∨ c.AgePassword ≠ none) := by
  cases hp : c.AgePassword <;> cases hr : c.AgeRecipients <;>
    simp [BackupConfig.ageRecipients, hp, hr]

theorem dbEntries_names (s : BackupService) (env : Env) :
    (dbEntries s env).map Prod.fst
      = if s.Config.Database && s.hasDatabase then ["database.sql.gz"] else [] := by
  by_cases h : (s.Config.Database && s.hasDatabase) = true <;> simp [dbEntries, h]

theorem dirEntries_names (s : BackupService) (env : Env) :
    (dirEntries s env).map Prod.fst
      = if s.Config.DataDirectories == "" then []
        else (List.range (splitComma s.Config.DataDirectories).length).map
          dataEntryName := by
  by_cases h : (s.Config.DataDirectories == "") = true <;>
    simp [dirEntries, h, List.map_map, Function.comp]

/-! ## Claim theorems -/

/-- C5: when database backup is disabled and no directory is configured,
`Backup` returns `nil`, opens no sink, chooses no filename, writes no
container entry and performs no open/close at all. -/
theorem backup_disabled_no_archive (s : BackupService) (env : Env)
    (hdb : s.Config.Database = false) (hdir : s.Config.DataDirectories = "") :
    s.Backup env
      = { ret := none, filename := none, sinkOpened := false, entries := [],
          meta := none, events := [] } := by
  have hen : s.IsBackupEnabled = false := by
    simp [BackupService.IsBackupEnabled, hdb, hdir]
  simp [BackupService.Backup, hen]

/-- Witness for C5 at a concrete disabled configuration. -/
theorem backup_disabled_no_archive_witness :
    sampleDisabledService.Config.Database = false ∧
    sampleDisabledService.Config.DataDirectories = "" ∧
    sampleDisabledService.Backup sampleEnv
      = { ret := none, filename := none, sinkOpened := false, entries := [],
          meta := none, events := [] } :=
  ⟨rfl, rfl, backup_disabled_no_archive sampleDisabledService sampleEnv rfl rfl⟩

/-- C6: every run that gets past the enabled check names its output
`backup_<timestamp>.zip`, with the extra `.age` suffix exactly when at least
one recipient (X25519 public key or scrypt passphrase) is configured. -/
theorem backup_filename_age_suffix (s : BackupService) (env : Env)
    (hen : s.IsBackupEnabled = true) :
    (s.Backup env).filename
      = some (if s.Config.AgeRecipients ≠ [] ∨ s.Config.AgePassword ≠ none then
          "backup_" ++ env.nowName ++ ".zip.age"
        else
          "backup_" ++ env.nowName ++ ".zip") := by
  have hiff := ageRecipients_pos_iff s.Config
  rw [BackupService.Backup]
  simp only [hen, Bool.not_true, Bool.false_eq_true, if_false]
  cases hcf : s.createFile env (if (s.Config.ageRecipients).length > 0 then
      "backup_" ++ env.nowName ++ ".zip.age"
    else "backup_" ++ env.nowName ++ ".zip") with
  | error e => dsimp only; rw [if_congr hiff rfl rfl]
  | ok u =>
    cases henc : s.encryptFile env.ageEncryptErr Writer.sink with
    | error e => dsimp only; rw [if_congr hiff rfl rfl]
    | ok p => dsimp only; rw [if_congr hiff rfl rfl]

/-- Witness for C6: the sample run (no recipients) gets the plain `.zip` name. -/
theorem backup_filename_age_suffix_witness :
    sampleService.IsBackupEnabled = true ∧
    (sampleService.Backup sampleEnv).filename
      = some "backup_2024-05-01T03:00:00Z.zip" := by
  refine ⟨by decide, ?_⟩
  rw [backup_filename_age_suffix sampleService sampleEnv (by decide)]
  decide

/-- C7: with zero recipients configured, `encryptFile` is the identity stage:
it hands back the very writer it was given (so every byte written to the
stage reaches the sink unmodified) together with the no-op close `func() {}`,
which emits no trailer bytes. -/
theorem encryptFile_identity_no_recipients (s : BackupService)
    (ageErr : Option Err) (file : Writer) (h : s.Config.ageRecipients = []) :
    s.encryptFile ageErr file = Except.ok (file, CloseAction.noop) ∧
    (∀ footer : Bytes, CloseAction.closeEmits footer CloseAction.noop = []) := by
  constructor
  · simp [BackupService.encryptFile, h]
  · intro footer; rfl

/-- Witness for C7 at the sample (recipient-free) configuration. -/
theorem encryptFile_identity_witness :
    sampleService.Config.ageRecipients = [] ∧
    sampleService.encryptFile none Writer.sink
      = Except.ok (Writer.sink, CloseAction.noop) :=
  ⟨rfl, (encryptFile_identity_no_recipients sampleService none Writer.sink rfl).1⟩

/-- C8: every run that opened the container (and hence the sink and the
encryption stage before it) closes the three layers in exactly the reverse
order of opening — container writer, then encryption stage, then sink —
and all three closes appear in the trace whatever the body returned. -/
theorem closes_reverse_order_always (s : BackupService) (env : Env)
    (h : Event.openContainer ∈ (s.Backup env).events) :
    (s.Backup env).events
      = [Event.openSink, Event.openEncrypt, Event.openContainer,
         Event.closeContainer, Event.closeEncrypt, Event.closeSink] := by
  rcases backup_events_shape s env with hs | hs | hs
  · rw [hs] at h; exact absurd h (List.not_mem_nil _)
  · rw [hs] at h; exact absurd h (by decide)
  · exact hs

/-- Witness for C8 on the sample run. -/
theorem closes_reverse_order_witness :
    Event.openContainer ∈ (sampleService.Backup sampleEnv).events ∧
    (sampleService.Backup sampleEnv).events
      = [Event.openSink, Event.openEncrypt, Event.openContainer,
         Event.closeContainer, Event.closeEncrypt, Event.closeSink] :=
  ⟨by decide, closes_reverse_order_always sampleService sampleEnv (by decide)⟩

/-- C9: two configurations that differ only in the exclusion list
(`BACKUP_DATA_EXCLUDE`) produce identical runs over the same environment —
same return value, same archive entries byte for byte, same manifest, same
events; the field is read by nothing in the pipeline. -/
theorem exclude_list_no_effect (s : BackupService) (env : Env) (x : String) :
    BackupService.Backup
        { s with Config := { s.Config with DataDirectoriesExclude := x } } env
      = s.Backup env := rfl

/-- C10: the value `Backup` returns is independent of whatever errors the
Closing phase produces — the container close, the encryption-stage close and
the sink close (local `file.Close` or the remote rendezvous) all run in
deferred calls whose results are discarded; and the remote rendezvous close
function returns nothing by type. -/
theorem backup_ret_ignores_close_errors (s : BackupService) (env : Env)
    (a b c : Option Err) :
    BackupService.Backup s
        { env with sinkCloseErr := a, encCloseErr := b, containerCloseErr := c }
      = s.Backup env ∧ (∀ p : RemotePut, remoteCloseRet p = none) :=
  ⟨rfl, fun _ => rfl⟩

/-- C3 counterexample: a fully successful run with database backup enabled
whose dump entry is named `database.sql.gz` — not `database` — with the
manifest's `database_backup` field holding `database.sql.gz`, and no entry
named `database` anywhere in the archive. -/
theorem container_entry_names_cex :
    (sampleService.Backup sampleEnv).ret = none ∧
    (sampleService.Backup sampleEnv).entries.map Prod.fst
      = ["database.sql.gz", "data_0.tar.gz", "data_1.tar.gz", "backup.yml"] ∧
    "database" ∉ (sampleService.Backup sampleEnv).entries.map Prod.fst ∧
    (sampleService.Backup sampleEnv).meta.map BackupMeta.DatabaseBackup
      = some "database.sql.gz" ∧
    "database.sql.gz" ≠ "database" := by decide

/-- C3 (amended): on every fully successful run with database backup enabled,
the dump entry is named `database.sql.gz`, the entry for the directory at
input position `i` is `data_<i>.tar.gz`, the manifest entry is `backup.yml`
(written last), and the manifest's `database_backup` field holds
`database.sql.gz`. -/
theorem container_entry_names (s : BackupService) (env : Env)
    (hdb : s.Config.Database = true) (hhas : s.hasDatabase = true)
    (hcf : env.createFileErr = none) (hage : env.ageEncryptErr = none)
    (hch : ∀ n, env.createHeaderErr n = none)
    (hdump : (env.dbDump).2 = none)
    (htar : ∀ d, (env.tarDir d).2 = none)
    (hyaml : env.yamlErr = none) :
    (s.Backup env).ret = none ∧
    (s.Backup env).entries.map Prod.fst
      = ["database.sql.gz"]
        ++ (if s.Config.DataDirectories == "" then []
            else (List.range (splitComma s.Config.DataDirectories).length).map
              dataEntryName)
        ++ ["backup.yml"] ∧
    (s.Backup env).meta.map BackupMeta.DatabaseBackup
      = some "database.sql.gz" := by
  have hen : s.IsBackupEnabled = true := by
    simp [BackupService.IsBackupEnabled, hdb]
  rw [Backup_success s env hen hcf hage hch hdump htar hyaml]
  refine ⟨rfl, ?_, ?_⟩
  · show (dbEntries s env ++ dirEntries s env
        ++ [("backup.yml", env.yamlEncode (finalMeta s env))]).map Prod.fst = _
    rw [List.map_append, List.map_append, dbEntries_names, dirEntries_names]
    simp [hdb, hhas]
  · simp [finalMeta, hdb, hhas]

/-- Witness for the amended C3 at the sample run. -/
theorem container_entry_names_witness :
    sampleService.Config.Database = true ∧
    ((sampleService.Backup sampleEnv).ret = none ∧
     (sampleService.Backup sampleEnv).entries.map Prod.fst
       = ["database.sql.gz"]
         ++ (if sampleService.Config.DataDirectories == "" then []
             else (List.range
               (splitComma sampleService.Config.DataDirectories).length).map
                 dataEntryName)
         ++ ["backup.yml"] ∧
     (sampleService.Backup sampleEnv).meta.map BackupMeta.DatabaseBackup
       = some "database.sql.gz") :=
  ⟨rfl, container_entry_names sampleService sampleEnv rfl rfl rfl rfl
    (fun _ => rfl) rfl (fun _ => rfl) rfl⟩

/-- C4: on every fully successful run with directories configured, the
configured string is split on commas and walked in input order; the `i`-th
directory's entry name is derived from its index; the manifest records one
`{directory_path, filename}` pair per input directory in input order (so the
paths read back in configuration order) and the recorded filenames are
pairwise distinct. -/
theorem directories_split_order_unique (s : BackupService) (env : Env)
    (hdir : s.Config.DataDirectories ≠ "")
    (hcf : env.createFileErr = none) (hage : env.ageEncryptErr = none)
    (hch : ∀ n, env.createHeaderErr n = none)
    (hdump : (env.dbDump).2 = none)
    (htar : ∀ d, (env.tarDir d).2 = none)
    (hyaml : env.yamlErr = none) :
    (s.Backup env).ret = none ∧
    ∃ m, (s.Backup env).meta = some m ∧
      m.Directories
        = (List.range (splitComma s.Config.DataDirectories).length).map
            (fun i => ⟨(splitComma s.Config.DataDirectories).getD i "",
              dataEntryName i⟩) ∧
      m.Directories.map BackupMetaDirectory.DirectoryPath
        = splitComma s.Config.DataDirectories ∧
      (m.Directories.map BackupMetaDirectory.Filename).Nodup ∧
      (s.Backup env).entries.map Prod.fst
        = (if s.Config.Database && s.hasDatabase then ["database.sql.gz"] else [])
          ++ (List.range (splitComma s.Config.DataDirectories).length).map
              dataEntryName
          ++ ["backup.yml"] := by
  have hen : s.IsBackupEnabled = true := by
    simp [BackupService.IsBackupEnabled, hdir]
  have hd : (s.Config.DataDirectories == "") = false := by simp [hdir]
  rw [Backup_success s env hen hcf hage hch hdump htar hyaml]
  have hdirs : (finalMeta s env).Directories
      = (List.range (splitComma s.Config.DataDirectories).length).map
          (fun i => ⟨(splitComma s.Config.DataDirectories).getD i "",
            dataEntryName i⟩) := by
    simp [finalMeta, hd]
  refine ⟨rfl, finalMeta s env, rfl, hdirs, ?_, ?_, ?_⟩
  · rw [hdirs, List.map_map]
    simpa [Function.comp] using
      range_map_getD "" (splitComma s.Config.DataDirectories)
  · rw [hdirs, List.map_map]
    have hinj : Function.Injective
        (BackupMetaDirectory.Filename ∘
          (fun i => (⟨(splitComma s.Config.DataDirectories).getD i "",
            dataEntryName i⟩ : BackupMetaDirectory))) := by
      intro a b hab
      exact dataEntryName_injective hab
    exact (List.nodup_range _).map hinj
  · show (dbEntries s env ++ dirEntries s env
        ++ [("backup.yml", env.yamlEncode (finalMeta s env))]).map Prod.fst = _
    rw [List.map_append, List.map_append, dbEntries_names, dirEntries_names]
    simp [hd]

/-- Witness for C4 at the sample run. -/
theorem directories_split_order_unique_witness :
    sampleService.Config.DataDirectories ≠ "" ∧
    ((sampleService.Backup sampleEnv).ret = none ∧
     ∃ m, (sampleService.Backup sampleEnv).meta = some m ∧
       m.Directories
         = (List.range
             (splitComma sampleService.Config.DataDirectories).length).map
             (fun i => ⟨(splitComma
               sampleService.Config.DataDirectories).getD i "",
               dataEntryName i⟩) ∧
       m.Directories.map BackupMetaDirectory.DirectoryPath
         = splitComma sampleService.Config.DataDirectories ∧
       (m.Directories.map BackupMetaDirectory.Filename).Nodup ∧
       (sampleService.Backup sampleEnv).entries.map Prod.fst
         = (if sampleService.Config.Database && sampleService.hasDatabase
              then ["database.sql.gz"] else [])
           ++ (List.range
               (splitComma sampleService.Config.DataDirectories).length).map
               dataEntryName
           ++ ["backup.yml"]) :=
  ⟨by decide, directories_split_order_unique sampleService sampleEnv
    (by decide) rfl rfl (fun _ => rfl) rfl (fun _ => rfl) rfl⟩

/-- C1: a run that fails while producing an entry aborts before the manifest.
First part: when the database dump fails, `Backup` returns that error, the
archive holds only the partial `database.sql.gz` entry, and no `backup.yml`
entry exists.  Second part: when the capture of the directory at position `i`
fails (everything before it succeeding), `Backup` returns the wrapped error,
the entries for the database (if enabled) and directories `0..i` remain in
the stream in order, and no `backup.yml` entry exists — so no manifest
indexes the flushed entries. -/
theorem backup_aborts_before_manifest :
    (∀ (s : BackupService) (env : Env) (e : Err),
      s.Config.Database = true → s.hasDatabase = true →
      env.createFileErr = none → env.ageEncryptErr = none →
      (∀ n, env.createHeaderErr n = none) →
      (env.dbDump).2 = some e →
      (s.Backup env).ret = some e ∧
      "backup.yml" ∉ (s.Backup env).entries.map Prod.fst ∧
      (s.Backup env).entries.map Prod.fst = ["database.sql.gz"]) ∧
    (∀ (s : BackupService) (env : Env) (i : Nat) (e : Err),
      s.Config.DataDirectories ≠ "" →
      env.createFileErr = none → env.ageEncryptErr = none →
      (∀ n, env.createHeaderErr n = none) →
      (env.dbDump).2 = none →
      i < (splitComma s.Config.DataDirectories).length →
      (∀ j, j < i →
        (env.tarDir ((splitComma s.Config.DataDirectories).getD j "")).2 = none) →
      (env.tarDir ((splitComma s.Config.DataDirectories).getD i "")).2 = some e →
      (s.Backup env).ret = some ("failed to create " ++ dataEntryName i ++ ": " ++ e) ∧
      "backup.yml" ∉ (s.Backup env).entries.map Prod.fst ∧
      (s.Backup env).entries.map Prod.fst
        = (if s.Config.Database && s.hasDatabase then ["database.sql.gz"] else [])
          ++ (List.range (i + 1)).map dataEntryName) := by
  constructor
  · intro s env e hdb hhas hcf hage hch hfail
    have hen : s.IsBackupEnabled = true := by
      simp [BackupService.IsBackupEnabled, hdb]
    have hb := backupBody_dbfail s env e hdb hhas hch hfail
    rw [Backup_run s env hen hcf hage]
    refine ⟨?_, ?_, ?_⟩
    · show (backupBody s env (metaInit env)).1 = some e
      rw [hb]
    · show "backup.yml" ∉ ((backupBody s env (metaInit env)).2.1).map Prod.fst
      rw [hb]
      simp
    · show ((backupBody s env (metaInit env)).2.1).map Prod.fst = _
      rw [hb]
      simp
  · intro s env i e hdir hcf hage hch hdump hi hpre hfail
    have hen : s.IsBackupEnabled = true := by
      simp [BackupService.IsBackupEnabled, hdir]
    have hd : (s.Config.DataDirectories == "") = false := by simp [hdir]
    obtain ⟨m, hb⟩ := backupBody_dirfail s env i e hd hch hdump hi hpre hfail
    have hnames : ((dbEntries s env
        ++ ((List.range (i + 1)).map (fun j => (dataEntryName j,
          (env.tarDir ((splitComma s.Config.DataDirectories).getD j "")).1)))).map
          Prod.fst)
        = (if s.Config.Database && s.hasDatabase then ["database.sql.gz"] else [])
          ++ (List.range (i + 1)).map dataEntryName := by
      rw [List.map_append, dbEntries_names, List.map_map]
      simp [Function.comp]
    rw [Backup_run s env hen hcf hage]
    refine ⟨?_, ?_, ?_⟩
    · show (backupBody s env (metaInit env)).1 = _
      rw [hb]
    · show "backup.yml" ∉ ((backupBody s env (metaInit env)).2.1).map Prod.fst
      rw [hb]
      dsimp only
      rw [hnames]
      intro hmem
      rcases List.mem_append.mp hmem with hmem | hmem
      · by_cases hdb2 : (s.Config.Database && s.hasDatabase) = true
        · rw [if_pos hdb2] at hmem
          exact absurd hmem (by decide)
        · rw [if_neg (by simp [hdb2])] at hmem
          exact absurd hmem (List.not_mem_nil _)
      · obtain ⟨j, _, hj⟩ := List.mem_map.mp hmem
        exact dataEntryName_ne_backupYml j hj
    · show ((backupBody s env (metaInit env)).2.1).map Prod.fst = _
      rw [hb]
      dsimp only
      exact hnames

/-- Witness for C1: the sample service with a failing dump, and with a
failing walk of the second directory. -/
theorem backup_aborts_before_manifest_witness :
    ((sampleService.Backup sampleDbFailEnv).ret = some "dump failed" ∧
     "backup.yml" ∉ (sampleService.Backup sampleDbFailEnv).entries.map Prod.fst ∧
     (sampleService.Backup sampleDbFailEnv).entries.map Prod.fst
       = ["database.sql.gz"]) ∧
    ((sampleService.Backup sampleDirFailEnv).ret
       = some ("failed to create " ++ dataEntryName 1 ++ ": " ++ "walk failed") ∧
     "backup.yml" ∉ (sampleService.Backup sampleDirFailEnv).entries.map Prod.fst ∧
     (sampleService.Backup sampleDirFailEnv).entries.map Prod.fst
       = (if sampleService.Config.Database && sampleService.hasDatabase
            then ["database.sql.gz"] else [])
         ++ (List.range (1 + 1)).map dataEntryName) :=
  ⟨backup_aborts_before_manifest.1 sampleService sampleDbFailEnv "dump failed"
     rfl rfl rfl rfl (fun _ => rfl) rfl,
   backup_aborts_before_manifest.2 sampleService sampleDirFailEnv 1 "walk failed"
     (by decide) rfl rfl (fun _ => rfl) rfl (by decide) (by decide) (by decide)⟩

/-- C2 counterexample: a remote-mode run in which the rclone put fails only
after the final pipe write.  No write observes the failure, the rendezvous
close (`writer.Close(); wg.Wait()`, a `func()`) returns nothing, and the run
returns `nil`: the failed upload is reported as success. -/
theorem remote_put_failure_lost_cex :
    (⟨some "upload failed", 3⟩ : RemotePut).putErr = some "upload failed" ∧
    remoteRunRet ⟨some "upload failed", 3⟩ 3 = none ∧
    remoteCloseRet ⟨some "upload failed", 3⟩ = none ∧
    sampleRemoteService.hasRClone = true ∧
    (sampleRemoteService.Backup sampleEnv).ret = none := by decide

/-- C2 (amended): in remote mode a put failure reaches the caller of `Backup`
only through a failing pipe write: the run's return value is the put's error
exactly when the failure became visible before some pipe write the body still
performs (`errVisibleFrom < numWrites`); when the put fails after the final
write, the run returns `nil` and the error is dropped at the rendezvous. -/
theorem remote_put_error_surfaced_iff_observed (p : RemotePut) (n : Nat) (e : Err)
    (h : p.putErr = some e) :
    remoteRunRet p n = if p.errVisibleFrom < n then some e else none := by
  rw [remoteRunRet, firstWriteErr_eq p e h n 0]
  split_ifs with h1 h2 <;> first | rfl | omega

/-- Witness for the amended C2: a put failure visible from the first write is
returned by the run. -/
theorem remote_put_error_surfaced_witness :
    (⟨some "put failed", 0⟩ : RemotePut).putErr = some "put failed" ∧
    remoteRunRet ⟨some "put failed", 0⟩ 2 = some "put failed" := by
  refine ⟨rfl, ?_⟩
  rw [remote_put_error_surfaced_iff_observed ⟨some "put failed", 0⟩ 2 "put failed" rfl]
  decide

/-- Sanity: `splitComma` matches Go `strings.Split` on representative inputs
(a two-field list, the empty string, and the README's example value). -/
theorem splitComma_spec :
    splitComma "a,b" = ["a", "b"] ∧ splitComma "" = [""] ∧
    splitComma "/data/A,/data/B" = ["/data/A", "/data/B"] := by decide

/-- Sanity: the decimal rendering and the derived entry names agree with
`fmt.Sprintf` on representative indices. -/
theorem dataEntryName_spec :
    decRepr 120 = "120" ∧ dataEntryName 0 = "data_0.tar.gz" ∧
    dataEntryName 12 = "data_12.tar.gz" := by decide

end Housekeeper
